import Mathlib

/-!
Verification of the structural-identifiability subsystem of the
`care_nl_ica` repository (autoregressive bottleneck, Sinkhorn operator,
feature projection, structural-loss gating of the training runner).

Matrices over the latent variables are embedded as `Matrix (Fin n) (Fin n) ℚ`
(the Sinkhorn operator, which uses the real exponential, is embedded over `ℝ`).
Python `torch` tensors hold floats; the claims under study are exact-arithmetic
statements, so an exact field is the faithful carrier.
-/

namespace CareNlIca

/-- Square rational matrix over `n` latent variables. -/
abbrev Mat (n : ℕ) : Type := Matrix (Fin n) (Fin n) ℚ

/-- Embedding of `torch.tril(M, diagonal=d)`: keep entry `(i, j)` iff `j ≤ i + d`. -/
def tril {n : ℕ} (M : Mat n) (d : ℤ) : Mat n :=
  fun i j => if (j : ℤ) ≤ (i : ℤ) + d then M i j else 0

/-- Embedding of `torch.ones_like` for a square matrix. -/
def onesMat (n : ℕ) : Mat n := fun _ _ => 1

/-- Element-wise (Hadamard) product, the meaning of `*` on two torch tensors. -/
def hadamard {n : ℕ} (A B : Mat n) : Mat n := fun i j => A i j * B i j

/-- Embedding of `torch.tril(torch.ones_like(value))` used by the
`assembled_weight` setter. -/
def trilOnes (n : ℕ) : Mat n := tril (onesMat n) 0

/-- State of an `ARMLP` module (`src/care_nl_ica/models/mlp.py`, class `ARMLP`).
The torch parameters are embedded as rational matrices; `budget_mask` stands for
`self.budget_net.mask` (the `SparseBudgetNet` sub-module lives outside the core
sources, so its mask is carried as an opaque state field); `scaling` embeds
`self.scaling`, which the source only creates when `residual ∧ triangular`
(the getter only reads it in that case). `transform` and `permutation_matrix`
embed the structure-injection fields set in `__init__` lines 70-73. -/
structure ARMLPState (n : ℕ) where
  residual : Bool
  triangular : Bool
  budget : Bool
  num_weights : ℕ
  gain : ℚ
  weight : List (Mat n)
  scaling : Fin n → ℚ
  budget_mask : Mat n
  transform : Mat n → Mat n
  permutation_matrix : Mat n
  struct_mask : Mat n

namespace ARMLP

variable {n : ℕ}

/-- Embedding of the `assembled_weight` property getter (`mlp.py` lines 75-91):
element-wise product of the weight stack starting from an all-ones matrix,
then an optional diagonal residual, then an optional `tril`, then an optional
budget mask. -/
def assembled_weight (m : ARMLPState n) : Mat n :=
  let w := m.weight.foldl hadamard (onesMat n)
  let w :=
    if m.residual = false ∨ m.triangular = false then w
    else w + Matrix.diagonal m.scaling
  let assembled := if m.triangular = false then w else tril w 0
  if m.budget = true then hadamard assembled m.budget_mask else assembled

/-- Embedding of the `assembled_weight` setter (`mlp.py` lines 108-119):
replace the weight stack by the given value followed by `num_weights - 1`
copies of `tril(ones)`. -/
def set_assembled_weight (m : ARMLPState n) (value : Mat n) : ARMLPState n :=
  { m with weight := value :: List.replicate (m.num_weights - 1) (trilOnes n) }

/-- Embedding of `make_triangular_with_permute` (`mlp.py` lines 93-106):
force `triangular := true`, `residual := false`, identity `transform`, assign
`assembled_weight := tri_weight`, store the permutation matrix. -/
def make_triangular_with_permute (m : ARMLPState n) (tri_weight permute : Mat n) :
    ARMLPState n :=
  let m₁ : ARMLPState n :=
    { m with triangular := true, residual := false, transform := fun x => x }
  let m₂ := set_assembled_weight m₁ tri_weight
  { m₂ with permutation_matrix := permute }

/-- Embedding of `ARMLP.forward` (`mlp.py` lines 121-122):
`transform(assembled_weight) @ permutation(x)`, where `permutation` is the
closure `lambda x: self.permutation_matrix @ x` set in `__init__`. -/
def forward (m : ARMLPState n) (x : Fin n → ℚ) : Fin n → ℚ :=
  Matrix.mulVec (m.transform (assembled_weight m)) (Matrix.mulVec m.permutation_matrix x)

/-- Embedding of `ARMLP.inject_structure` (`mlp.py` lines 141-150): when the
flag is true, set `struct_mask` to the 0/1 pattern of the adjacency and make
`transform` the element-wise multiplication by that mask; otherwise do nothing. -/
def inject_structure (m : ARMLPState n) (adj_mat : Mat n) (inject : Bool) :
    ARMLPState n :=
  if inject then
    let mask : Mat n := fun i j => if 0 < |adj_mat i j| then 1 else 0
    { m with struct_mask := mask, transform := fun w => hadamard mask w }
  else m

/-- Tags for the recognized `weight_init_fn` choices of `ARMLP.__init__`
(`mlp.py` lines 33-42). `scaleByGain` is the `None` case
(`lambda x, gain: x * gain`); the other four name the `torch.nn.init`
functions selected by the recognized strings. -/
inductive WInitTag where
  | scaleByGain
  | orthogonal
  | xavierNormal
  | xavierUniform
  | sparseInit
deriving DecidableEq

/-- Embedding of the `weight_init_fn` dispatch of `ARMLP.__init__`
(`mlp.py` lines 33-42). A `None` argument selects the gain-scaling lambda;
the four recognized strings select the matching initializer; any other
string falls through every `elif`, so the attribute `self.weight_init_fn`
is never assigned — embedded as `none`. -/
def dispatchWeightInit : Option String → Option WInitTag
  | none => some .scaleByGain
  | some s =>
    if s = "orthogonal" then some .orthogonal
    else if s = "xavier_normal" then some .xavierNormal
    else if s = "xavier_uniform" then some .xavierUniform
    else if s = "sparse" then some .sparseInit
    else none

/-- Application of the selected initializer to a freshly drawn weight matrix.
The `None` case is the source lambda `x * gain`; the `torch.nn.init` functions
are external to the core sources and are supplied as the parameter `extInit`. -/
def applyWeightInit (extInit : WInitTag → Mat n → ℚ → Mat n) :
    WInitTag → Mat n → ℚ → Mat n
  | .scaleByGain, w, g => fun i j => w i j * g
  | t, w, g => extInit t w g

/-- Embedding of the `ARMLP.__init__` constructor (`mlp.py` lines 14-73).
`rawWeights k` stands for the random `nn.Linear(num_vars, num_vars).weight`
draw of the `k`-th comprehension step, and `budget_mask` for the external
`SparseBudgetNet` mask. When the `weight_init_fn` dispatch matched, each stack
entry is `tril(init(raw), 0 or -1)` in the triangular case and `init(raw)`
otherwise, and the structure-injection fields get their defaults (identity
`transform` unless one is passed, identity permutation, all-ones
`struct_mask = ones_like(weight[0])`). Construction fails on two paths. When
the dispatch fell through (unrecognized name), the attribute
`self.weight_init_fn` was never set, so the weight-stack comprehension raises
`AttributeError` at its first iteration — which exists exactly when
`num_weights ≥ 1`. And with `num_weights = 0` the stack is empty, so the
`struct_mask` assignment at line 73 reads `self.weight[0]` from an empty
`ParameterList` and raises `IndexError` (in the fallen-through dispatch case
the empty comprehension never touches the missing attribute, so line 73's
`IndexError` is the error there too). -/
def construct (extInit : WInitTag → Mat n → ℚ → Mat n) (rawWeights : ℕ → Mat n)
    (transformArg : Option (Mat n → Mat n)) (residual : Bool) (num_weights : ℕ)
    (triangular budget : Bool) (weight_init_fn : Option String) (gain : ℚ)
    (budget_mask : Mat n) : Except String (ARMLPState n) :=
  let mkState (ws : List (Mat n)) : ARMLPState n :=
    { residual := residual
      triangular := triangular
      budget := budget
      num_weights := num_weights
      gain := gain
      weight := ws
      scaling := fun _ => 1
      budget_mask := budget_mask
      transform := transformArg.getD (fun w => w)
      permutation_matrix := fun i j => if i = j then 1 else 0
      struct_mask := onesMat n }
  match dispatchWeightInit weight_init_fn with
  | some tag =>
      if num_weights = 0 then
        .error "IndexError: index 0 is out of range for empty ParameterList"
      else
        .ok (mkState ((List.range num_weights).map (fun k =>
          if triangular then
            tril (applyWeightInit extInit tag (rawWeights k) gain)
              (if residual then -1 else 0)
          else applyWeightInit extInit tag (rawWeights k) gain)))
  | none =>
      if num_weights = 0 then
        .error "IndexError: index 0 is out of range for empty ParameterList"
      else .error "AttributeError: ARMLP object has no attribute weight_init_fn"

end ARMLP

/-- True exactly on the `error` constructor; embeds "construction raises". -/
def raisesError {α : Type} : Except String α → Bool
  | .error _ => true
  | .ok _ => false

/-- State of a `FeatureMLP` module (`mlp.py`, class `FeatureMLP`): one
`nn.Linear(in_features, out_feature, bias)` per variable, each followed by
`LeakyReLU(0.25)` (or the identity when `force_identity` was set). -/
structure FeatureMLPState (numVars inF outF : ℕ) where
  weight : Fin numVars → Fin outF → Fin inF → ℚ
  bias : Fin numVars → Fin outF → ℚ
  useBias : Bool
  forceIdentity : Bool

/-- Embedding of `torch.nn.LeakyReLU(negative_slope)`. -/
def leakyReLU (slope x : ℚ) : ℚ := if 0 ≤ x then x else slope * x

namespace FeatureMLP

/-- Embedding of `FeatureMLP.forward` (`mlp.py` lines 183-197) on a
rank-3 input of shape batch × num_vars × in_features: the `i`-th linear
layer and activation are applied to slice `x[:, i, :]` only, and the
results are stacked along dimension 1. -/
def forward {B : Type} {numVars inF outF : ℕ} (m : FeatureMLPState numVars inF outF)
    (x : B → Fin numVars → Fin inF → ℚ) : B → Fin numVars → Fin outF → ℚ :=
  fun b i o =>
    let lin := (∑ f : Fin inF, m.weight i o f * x b i f) +
      (if m.useBias then m.bias i o else 0)
    if m.forceIdentity then lin else leakyReLU (1 / 4) lin

end FeatureMLP

namespace ARBottleneckNet

/-- Embedding of `ARBottleneckNet._init_pre_layers` (`mlp.py` lines 271-284):
with a nonempty pre-layer feature list whose first entry differs from 1,
raise; otherwise succeed. -/
def init_pre_layers : List ℤ → Except String Unit
  | [] => .ok ()
  | f :: _ => if f ≠ 1 then .error "First feature size should be 1!" else .ok ()

/-- Embedding of `ARBottleneckNet._init_post_layers` (`mlp.py` lines 286-300):
with a nonempty post-layer feature list whose last entry differs from 1,
raise; otherwise succeed. -/
def init_post_layers (post : List ℤ) : Except String Unit :=
  match post.getLast? with
  | none => .ok ()
  | some l => if l ≠ 1 then .error "Last feature size should be 1!" else .ok ()

/-- Embedding of `ARBottleneckNet._init_feature_layers` (`mlp.py` lines
258-269): raise when both feature lists are empty, then run the pre- and
post-layer checks. -/
def init_feature_layers (pre post : List ℤ) : Except String Unit :=
  if pre = [] ∧ post = [] then .error "No pre- and post-layer specified!"
  else do
    init_pre_layers pre
    init_post_layers post

end ARBottleneckNet

namespace SinkhornOperator

/-- Embedding of `SinkhornOperator.__init__` (`src/care_nl_ica/sinkhorn.py`
lines 8-13): a Python `int` argument, rejected with `ValueError` when below 1
(embedded as `none`), otherwise stored. -/
def init (num_steps : ℤ) : Option ℤ :=
  if num_steps < 1 then none else some num_steps

/-- Embedding of the `ones_column` tensor of `SinkhornOperator.__call__`:
the all-ones column `torch.ones(matrix.shape[0], 1)`. -/
noncomputable def onesColumn (n : ℕ) : Matrix (Fin n) (Fin 1) ℝ := fun _ _ => 1

/-- Embedding of `_normalize_row` (`sinkhorn.py` lines 20-21): entry-wise
division of the matrix by `matrix @ ones_column @ ones_column.T`. -/
noncomputable def normalizeRow {n : ℕ} (M : Matrix (Fin n) (Fin n) ℝ) :
    Matrix (Fin n) (Fin n) ℝ :=
  fun i j => M i j / (M * onesColumn n * Matrix.transpose (onesColumn n)) i j

/-- Embedding of `_normalize_column` (`sinkhorn.py` lines 23-24): entry-wise
division of the matrix by `ones_column @ ones_column.T @ matrix`. -/
noncomputable def normalizeColumn {n : ℕ} (M : Matrix (Fin n) (Fin n) ℝ) :
    Matrix (Fin n) (Fin n) ℝ :=
  fun i j => M i j / (onesColumn n * Matrix.transpose (onesColumn n) * M) i j

/-- Embedding of `SinkhornOperator.__call__` (`sinkhorn.py` lines 16-31):
start from the entry-wise exponential of the argument and apply
`_normalize_column ∘ _normalize_row` once per loop iteration,
`num_steps` times. -/
noncomputable def call {n : ℕ} (num_steps : ℕ) (matrix : Matrix (Fin n) (Fin n) ℝ) :
    Matrix (Fin n) (Fin n) ℝ :=
  (fun S => normalizeColumn (normalizeRow S))^[num_steps]
    (fun i j => Real.exp (matrix i j))

/-- Stated from the spec, for comparison with the source: row normalization
divides every row by its sum. -/
noncomputable def rowNormalizeSpec {n : ℕ} (M : Matrix (Fin n) (Fin n) ℝ) :
    Matrix (Fin n) (Fin n) ℝ :=
  fun i j => M i j / ∑ k : Fin n, M i k

/-- Stated from the spec, for comparison with the source: column normalization
divides every column by its sum. -/
noncomputable def colNormalizeSpec {n : ℕ} (M : Matrix (Fin n) (Fin n) ℝ) :
    Matrix (Fin n) (Fin n) ℝ :=
  fun i j => M i j / ∑ k : Fin n, M k j

/-- Stated from the spec, for comparison with the source: `S₀ = exp(M)`
followed by `k` iterations of row- then column-normalization. -/
noncomputable def sinkhornSpec {n : ℕ} (k : ℕ) (M : Matrix (Fin n) (Fin n) ℝ) :
    Matrix (Fin n) (Fin n) ℝ :=
  (fun S => colNormalizeSpec (rowNormalizeSpec S))^[k] (fun i j => Real.exp (M i j))

end SinkhornOperator

/-- Hyperparameters read by the structural-loss helpers of `Runner`
(`src/care_nl_ica/runner.py`). Coefficients are rational scalars; `start_step`
is `None` or a step index, exactly as `self.hparams.start_step`. -/
structure RunnerHParams where
  l1 : ℚ
  l2 : ℚ
  entropy_coeff : ℚ
  budget : ℚ
  qr_loss : ℚ
  triangularity_loss : ℚ
  use_ar_mlp : Bool
  permute : Bool
  start_step : Option ℕ

/-- State read by the structural-loss helpers of `Runner`. The scalar fields
stand for values produced by collaborators outside the core sources:
`encoderParamsSqSum` for the `Σ param²` loop over `self.model.encoder.parameters()`,
`bottleneckL1Norm` for `self.model.encoder.bottleneck_l1_norm`,
`sinkhornEntropy` for `self.model.sinkhorn_entropy`, `budgetNetLoss` and
`budgetNetEntropy` for the `SparseBudgetNet` terms, `qrPermutationLoss` for
`permutation_loss(Q)` of the extracted permutation, and `triangularityTerm`
for the sum of the three Frobenius-diagonality terms; the claims under study
concern only the gating of these terms. -/
structure RunnerState (n : ℕ) where
  hparams : RunnerHParams
  dep_loss : Option ℚ
  dep_mat : Option (Mat n)
  global_step : ℕ
  encoderParamsSqSum : ℚ
  bottleneckL1Norm : ℚ
  sinkhornEntropy : ℚ
  budgetNetLoss : ℚ
  budgetNetEntropy : ℚ
  qrPermutationLoss : ℚ
  triangularityTerm : ℚ

namespace Runner

variable {n : ℕ}

/-- Embedding of `Runner._l2_loss` (`runner.py` lines 253-260). -/
def l2_loss (r : RunnerState n) (total_loss_value : ℚ) : ℚ :=
  if r.hparams.l2 ≠ 0 then total_loss_value + r.hparams.l2 * r.encoderParamsSqSum
  else total_loss_value

/-- Embedding of `Runner._l1_loss` (`runner.py` lines 247-251). -/
def l1_loss (r : RunnerState n) (total_loss_value : ℚ) : ℚ :=
  if r.hparams.l1 ≠ 0 ∧ r.hparams.use_ar_mlp = true then
    total_loss_value + r.hparams.l1 * r.bottleneckL1Norm
  else total_loss_value

/-- Embedding of `Runner._sinkhorn_entropy_loss` (`runner.py` lines 232-236). -/
def sinkhorn_entropy_loss (r : RunnerState n) (total_loss_value : ℚ) : ℚ :=
  if r.hparams.entropy_coeff ≠ 0 ∧ r.hparams.permute = true then
    total_loss_value + r.hparams.entropy_coeff * r.sinkhornEntropy
  else total_loss_value

/-- Embedding of `Runner._dep_loss` (`runner.py` lines 227-230). -/
def dep_loss (r : RunnerState n) (total_loss_value : ℚ) : ℚ :=
  match r.dep_loss with
  | some d => total_loss_value + d
  | none => total_loss_value

/-- Embedding of `Runner._budget_loss` (`runner.py` lines 238-245). -/
def budget_loss (r : RunnerState n) (total_loss_value : ℚ) : ℚ :=
  if r.hparams.budget ≠ 0 ∧ r.hparams.use_ar_mlp = true then
    let acc := total_loss_value + r.hparams.budget * r.budgetNetLoss
    if r.hparams.entropy_coeff ≠ 0 then
      acc + r.hparams.entropy_coeff * r.budgetNetEntropy
    else acc
  else total_loss_value

/-- Embedding of the start-step gate
`start_step is None or (start_step is not None and global_step >= start_step)`
shared by `_qr_loss` and `_triangularity_loss`. -/
def startStepGate (r : RunnerState n) : Bool :=
  match r.hparams.start_step with
  | none => true
  | some s => decide (s ≤ r.global_step)

/-- Embedding of `Runner._qr_loss` (`runner.py` lines 155-186): gated by a
nonzero coefficient and the start-step gate, and inside that by the presence
of a dependency matrix. -/
def qr_loss (r : RunnerState n) (total_loss_value : ℚ) : ℚ :=
  if r.hparams.qr_loss ≠ 0 ∧ startStepGate r = true then
    match r.dep_mat with
    | some _ => total_loss_value + r.hparams.qr_loss * r.qrPermutationLoss
    | none => total_loss_value
  else total_loss_value

/-- Embedding of `Runner._triangularity_loss` (`runner.py` lines 188-225):
gated by a nonzero coefficient and the start-step gate. -/
def triangularity_loss (r : RunnerState n) (total_loss_value : ℚ) : ℚ :=
  if r.hparams.triangularity_loss ≠ 0 ∧ startStepGate r = true then
    total_loss_value + r.hparams.triangularity_loss * r.triangularityTerm
  else total_loss_value

end Runner

/-! ## Helper lemmas -/

lemma foldl_hadamard_apply {n : ℕ} (l : List (Mat n)) (W : Mat n) (i j : Fin n) :
    (l.foldl hadamard W) i j = W i j * (l.map (fun A => A i j)).prod := by
  induction l generalizing W with
  | nil => simp
  | cons A l ih =>
      simp only [List.foldl_cons, List.map_cons, List.prod_cons, ih, hadamard]
      ring

lemma tril_eq_zero_of_lt {n : ℕ} (M : Mat n) (d : ℤ) (i j : Fin n)
    (h : (i : ℤ) + d < (j : ℤ)) : tril M d i j = 0 := by
  simp only [tril, ite_eq_right_iff]
  intro h'
  omega

lemma tril_apply_of_le {n : ℕ} (M : Mat n) (i j : Fin n)
    (h : (j : ℕ) ≤ (i : ℕ)) : tril M 0 i j = M i j := by
  unfold tril
  rw [if_pos (show ((j : ℕ) : ℤ) ≤ ((i : ℕ) : ℤ) + 0 by omega)]

lemma trilOnes_apply_of_le {n : ℕ} (i j : Fin n) (h : (j : ℕ) ≤ (i : ℕ)) :
    trilOnes n i j = 1 :=
  tril_apply_of_le (onesMat n) i j h

lemma assembled_weight_set_eq {n : ℕ} (m : ARMLPState n) (V : Mat n)
    (ht : m.triangular = true) (hr : m.residual = false) (hb : m.budget = false)
    (hV : ∀ i j : Fin n, (i : ℕ) < (j : ℕ) → V i j = 0) :
    ARMLP.assembled_weight (ARMLP.set_assembled_weight m V) = V := by
  funext i j
  simp only [ARMLP.assembled_weight, ARMLP.set_assembled_weight, hr, ht, hb,
    Bool.false_eq_true, Bool.true_eq_false, if_false, ite_false, eq_self_iff_true,
    true_or, or_false, false_or, if_true, ite_true]
  by_cases hij : (j : ℕ) ≤ (i : ℕ)
  · rw [tril_apply_of_le _ _ _ hij, foldl_hadamard_apply]
    simp only [List.map_cons, List.map_replicate, List.prod_cons,
      List.prod_replicate, onesMat, one_mul]
    rw [trilOnes_apply_of_le i j hij, one_pow, mul_one]
  · rw [tril_eq_zero_of_lt _ _ _ _ (by omega), hV i j (by omega)]

lemma tril_eq_self_of_lower {n : ℕ} (V : Mat n)
    (hV : ∀ i j : Fin n, (i : ℕ) < (j : ℕ) → V i j = 0) : tril V 0 = V := by
  funext i j
  by_cases hij : (j : ℕ) ≤ (i : ℕ)
  · exact tril_apply_of_le V i j hij
  · rw [tril_eq_zero_of_lt _ _ _ _ (by omega), hV i j (by omega)]

/-! ## Claim theorems -/

/-- Claim C1: for every `ARMLP` constructed with `budget = False`, every
lower-triangular square matrix `V` and every permutation matrix `P`, after
`make_triangular_with_permute(V, P)` — which forces `triangular = True`,
`residual = False`, identity transform, assigns `assembled_weight := V` and
stores `P` — `forward(x)` equals `V @ (P @ x)` for every `x`; with `P` the
identity, `forward(x)` equals `tril(V) @ x = V @ x`. Proved for arbitrary
matrices `P`, which covers every permutation matrix. -/
theorem armlp_make_triangular_with_permute_forward (n : ℕ) (m : ARMLPState n)
    (V P : Mat n) (x : Fin n → ℚ) (hb : m.budget = false)
    (hV : ∀ i j : Fin n, (i : ℕ) < (j : ℕ) → V i j = 0) :
    ARMLP.forward (ARMLP.make_triangular_with_permute m V P) x
      = Matrix.mulVec V (Matrix.mulVec P x) ∧
    ARMLP.forward (ARMLP.make_triangular_with_permute m V 1) x
      = Matrix.mulVec V x ∧ tril V 0 = V := by
  have key : ∀ Q : Mat n,
      ARMLP.forward (ARMLP.make_triangular_with_permute m V Q) x
        = Matrix.mulVec V (Matrix.mulVec Q x) := fun Q =>
    congrArg (fun W => Matrix.mulVec W (Matrix.mulVec Q x))
      (assembled_weight_set_eq
        { m with triangular := true, residual := false, transform := fun w => w }
        V rfl rfl hb hV)
  refine ⟨key P, ?_, tril_eq_self_of_lower V hV⟩
  rw [key 1, Matrix.one_mulVec]

/-- Concrete `ARMLP` state (with `budget = false` but deliberately
non-triangular, residual, junk transform and permutation) used to instantiate
the C1 theorem. -/
def mkTriangularWitnessState : ARMLPState 2 :=
  { residual := true
    triangular := false
    budget := false
    num_weights := 3
    gain := 1
    weight := [!![1, 2; 3, 4]]
    scaling := fun _ => 2
    budget_mask := onesMat 2
    transform := fun _ => onesMat 2
    permutation_matrix := onesMat 2
    struct_mask := onesMat 2 }

/-- Witness for C1: the theorem instantiated at a concrete state, a concrete
lower-triangular matrix, the swap permutation and a concrete input. -/
theorem armlp_make_triangular_with_permute_forward_witness :
    mkTriangularWitnessState.budget = false ∧
    (∀ i j : Fin 2, (i : ℕ) < (j : ℕ) → (!![2, 0; 3, 4] : Mat 2) i j = 0) ∧
    ARMLP.forward
      (ARMLP.make_triangular_with_permute mkTriangularWitnessState
        !![2, 0; 3, 4] !![0, 1; 1, 0]) ![5, 7]
      = Matrix.mulVec !![2, 0; 3, 4] (Matrix.mulVec !![0, 1; 1, 0] ![5, 7]) :=
  ⟨rfl, by decide,
    (armlp_make_triangular_with_permute_forward 2 mkTriangularWitnessState
      !![2, 0; 3, 4] !![0, 1; 1, 0] ![5, 7] rfl (by decide)).1⟩

/-- Claim C2: for every lower-triangular `V` and every `ARMLP` with
`triangular = True`, `residual = False`, `budget = False`, the assignment
`assembled_weight := V` replaces the weight stack with
`[V, tril(ones), ..., tril(ones)]` (`num_weights` entries in total when
`num_weights ≥ 1`), and reading `assembled_weight` back yields exactly `V`;
in particular the zero pattern of the read-back matrix equals that of `V`. -/
theorem armlp_assembled_weight_set_get (n : ℕ) (m : ARMLPState n) (V : Mat n)
    (ht : m.triangular = true) (hr : m.residual = false) (hb : m.budget = false)
    (hV : ∀ i j : Fin n, (i : ℕ) < (j : ℕ) → V i j = 0) :
    ARMLP.assembled_weight (ARMLP.set_assembled_weight m V) = V ∧
    (∀ i j : Fin n,
      ARMLP.assembled_weight (ARMLP.set_assembled_weight m V) i j = 0 ↔ V i j = 0) ∧
    (ARMLP.set_assembled_weight m V).weight
      = V :: List.replicate (m.num_weights - 1) (trilOnes n) ∧
    (1 ≤ m.num_weights →
      (ARMLP.set_assembled_weight m V).weight.length = m.num_weights) := by
  have h := assembled_weight_set_eq m V ht hr hb hV
  refine ⟨h, fun i j => by rw [h], rfl, fun hnw => ?_⟩
  simp only [ARMLP.set_assembled_weight, List.length_cons, List.length_replicate]
  omega

/-- Concrete `ARMLP` state with `triangular = true`, `residual = false`,
`budget = false` used to instantiate the C2 theorem. -/
def setGetWitnessState : ARMLPState 2 :=
  { residual := false
    triangular := true
    budget := false
    num_weights := 4
    gain := 1
    weight := [!![1, 2; 3, 4], !![5, 6; 7, 8]]
    scaling := fun _ => 2
    budget_mask := onesMat 2
    transform := fun w => w
    permutation_matrix := onesMat 2
    struct_mask := onesMat 2 }

/-- Witness for C2: the theorem instantiated at a concrete state and a
concrete lower-triangular matrix. -/
theorem armlp_assembled_weight_set_get_witness :
    setGetWitnessState.triangular = true ∧ setGetWitnessState.residual = false ∧
    setGetWitnessState.budget = false ∧
    (∀ i j : Fin 2, (i : ℕ) < (j : ℕ) → (!![5, 0; -1, 2] : Mat 2) i j = 0) ∧
    ARMLP.assembled_weight (ARMLP.set_assembled_weight setGetWitnessState
      !![5, 0; -1, 2]) = !![5, 0; -1, 2] :=
  ⟨rfl, rfl, rfl, by decide,
    (armlp_assembled_weight_set_get 2 setGetWitnessState !![5, 0; -1, 2]
      rfl rfl rfl (by decide)).1⟩

/-- Claim C3: for every `ARMLP` with `triangular = True`, arbitrary weight
stack and arbitrary `residual` and `budget` flags, every strictly-upper
entry of `assembled_weight` is 0. -/
theorem armlp_assembled_weight_strictly_upper_zero (n : ℕ) (m : ARMLPState n)
    (i j : Fin n) (ht : m.triangular = true) (hij : (i : ℕ) < (j : ℕ)) :
    ARMLP.assembled_weight m i j = 0 := by
  have hz : ∀ w : Mat n, tril w 0 i j = 0 := fun w =>
    tril_eq_zero_of_lt w 0 i j (by omega)
  simp only [ARMLP.assembled_weight, ht, Bool.true_eq_false, if_false, ite_false]
  split
  · simp [hadamard, hz]
  · exact hz _

/-- Concrete `ARMLP` state with `triangular = true` and both `residual` and
`budget` switched on, with a dense weight stack, used to instantiate the C3
theorem. -/
def triangularWitnessState : ARMLPState 2 :=
  { residual := true
    triangular := true
    budget := true
    num_weights := 2
    gain := 1
    weight := [!![1, 2; 3, 4], !![5, 6; 7, 8]]
    scaling := fun _ => 3
    budget_mask := !![1, 1; 0, 1]
    transform := fun w => w
    permutation_matrix := onesMat 2
    struct_mask := onesMat 2 }

/-- Witness for C3: the theorem instantiated at the strictly-upper entry
`(0, 1)` of a concrete state. -/
theorem armlp_assembled_weight_strictly_upper_zero_witness :
    triangularWitnessState.triangular = true ∧
    ((0 : Fin 2) : ℕ) < ((1 : Fin 2) : ℕ) ∧
    ARMLP.assembled_weight triangularWitnessState 0 1 = 0 :=
  ⟨rfl, by decide,
    armlp_assembled_weight_strictly_upper_zero 2 triangularWitnessState 0 1
      rfl (by decide)⟩

lemma raisesError_init_pre (pre : List ℤ) :
    raisesError (ARBottleneckNet.init_pre_layers pre) = true ↔
      (pre ≠ [] ∧ pre.head? ≠ some 1) := by
  cases pre with
  | nil => simp [ARBottleneckNet.init_pre_layers, raisesError]
  | cons f rest =>
      by_cases hf : f = 1 <;>
        simp [ARBottleneckNet.init_pre_layers, raisesError, hf]

lemma raisesError_init_post (post : List ℤ) :
    raisesError (ARBottleneckNet.init_post_layers post) = true ↔
      (post ≠ [] ∧ post.getLast? ≠ some 1) := by
  rcases hl : post.getLast? with _ | l
  · have hpost : post = [] := List.getLast?_eq_none_iff.mp hl
    simp [ARBottleneckNet.init_post_layers, hpost, raisesError]
  · have hpost : post ≠ [] := by
      intro hc
      rw [hc] at hl
      exact Option.noConfusion hl
    by_cases h1 : l = 1 <;>
      simp [ARBottleneckNet.init_post_layers, hl, raisesError, h1, hpost]

/-- Claim C8: constructing an `ARBottleneckNet` raises a fatal `ValueError`
exactly when both feature lists are empty, or the pre-layer list is nonempty
with first entry different from 1, or the post-layer list is nonempty with
last entry different from 1; for all other feature lists the construction-time
checks pass. -/
theorem arbottleneck_init_feature_layers_check (pre post : List ℤ) :
    raisesError (ARBottleneckNet.init_feature_layers pre post) = true ↔
      ((pre = [] ∧ post = []) ∨ (pre ≠ [] ∧ pre.head? ≠ some 1) ∨
        (post ≠ [] ∧ post.getLast? ≠ some 1)) := by
  unfold ARBottleneckNet.init_feature_layers
  by_cases hboth : pre = [] ∧ post = []
  · simp [hboth, raisesError]
  · rw [if_neg hboth]
    rcases hpre : ARBottleneckNet.init_pre_layers pre with e | u
    · have herr : raisesError (ARBottleneckNet.init_pre_layers pre) = true := by
        rw [hpre]; rfl
      rw [raisesError_init_pre] at herr
      exact ⟨fun _ => Or.inr (Or.inl herr), fun _ => rfl⟩
    · have hok : ¬ (pre ≠ [] ∧ pre.head? ≠ some 1) := by
        intro hc
        have hcontra := (raisesError_init_pre pre).mpr hc
        rw [hpre] at hcontra
        exact Bool.noConfusion hcontra
      show raisesError (ARBottleneckNet.init_post_layers post) = true ↔ _
      rw [raisesError_init_post]
      tauto

/-- Claim C9: `FeatureMLP.forward` is per-variable noninterfering — if two
rank-3 inputs agree on variable channel `i`, the outputs agree on channel `i`:
output channel `i` depends only on input channel `i` and the `i`-th
per-variable parameters. -/
theorem feature_mlp_forward_noninterference (B : Type) (numVars inF outF : ℕ)
    (m : FeatureMLPState numVars inF outF) (i : Fin numVars)
    (x y : B → Fin numVars → Fin inF → ℚ)
    (h : ∀ (b : B) (f : Fin inF), x b i f = y b i f) (b : B) (o : Fin outF) :
    FeatureMLP.forward m x b i o = FeatureMLP.forward m y b i o := by
  simp only [FeatureMLP.forward, h]

/-- Concrete `FeatureMLP` state used to instantiate the C9 theorem. -/
def featureWitnessState : FeatureMLPState 2 1 1 :=
  { weight := fun i _ _ => if i = 0 then 2 else 3
    bias := fun _ _ => 1
    useBias := true
    forceIdentity := false }

/-- Witness for C9: two concrete inputs that agree on channel 0 but differ on
channel 1 produce the same channel-0 output. -/
theorem feature_mlp_forward_noninterference_witness :
    (∀ (b : Fin 1) (f : Fin 1),
      (fun (_ : Fin 1) (i : Fin 2) (_ : Fin 1) => if i = 0 then (10 : ℚ) else 20) b 0 f
        = (fun (_ : Fin 1) (i : Fin 2) (_ : Fin 1) => if i = 0 then (10 : ℚ) else 99) b 0 f) ∧
    FeatureMLP.forward featureWitnessState
        (fun _ i _ => if i = 0 then (10 : ℚ) else 20) 0 0 0
      = FeatureMLP.forward featureWitnessState
        (fun _ i _ => if i = 0 then (10 : ℚ) else 99) 0 0 0 :=
  ⟨by decide,
    feature_mlp_forward_noninterference (Fin 1) 2 1 1 featureWitnessState 0
      (fun _ i _ => if i = 0 then (10 : ℚ) else 20)
      (fun _ i _ => if i = 0 then (10 : ℚ) else 99)
      (by decide) 0 0⟩

/-- Claim C10: `inject_structure(adj_mat, inject_structure=False)` is a
complete no-op for every adjacency matrix; only with the flag `True` is the
structural mask derived from `adj_mat` (nonzero entries mapped to 1) and the
transform replaced by element-wise mask multiplication; and an `ARMLP` that
construction actually completes (default arguments, which requires
`num_weights ≥ 1` since an empty stack makes line 73 raise `IndexError`)
carries the all-ones `struct_mask` and identity `transform` that the no-op
preserves. -/
theorem armlp_inject_structure_flag (n : ℕ) (m : ARMLPState n) (adj : Mat n) :
    ARMLP.inject_structure m adj false = m ∧
    ((ARMLP.inject_structure m adj true).struct_mask
      = fun i j => if 0 < |adj i j| then 1 else 0) ∧
    ((ARMLP.inject_structure m adj true).transform
      = fun w => hadamard (fun i j => if 0 < |adj i j| then 1 else 0) w) ∧
    (∀ (extInit : ARMLP.WInitTag → Mat n → ℚ → Mat n) (raw : ℕ → Mat n)
        (residual : Bool) (num_weights : ℕ) (triangular budget : Bool)
        (gain : ℚ) (bmask : Mat n), 1 ≤ num_weights →
      ∃ s : ARMLPState n,
        ARMLP.construct extInit raw none residual num_weights triangular budget
          none gain bmask = Except.ok s ∧
        s.struct_mask = onesMat n ∧ s.transform = (fun w => w) ∧
        ARMLP.inject_structure s adj false = s) := by
  refine ⟨rfl, rfl, rfl, ?_⟩
  intro extInit raw residual num_weights triangular budget gain bmask hnw
  unfold ARMLP.construct
  rw [show ARMLP.dispatchWeightInit none = some ARMLP.WInitTag.scaleByGain from rfl]
  dsimp only
  rw [if_neg (show ¬ num_weights = 0 by omega)]
  exact ⟨_, rfl, rfl, rfl, rfl⟩

/-- Witness for C10: the theorem instantiated at a concrete state and
adjacency, with the construction conjunct applied at `num_weights = 2`. -/
theorem armlp_inject_structure_flag_witness :
    ARMLP.inject_structure mkTriangularWitnessState !![0, 0; 5, 0] false
      = mkTriangularWitnessState ∧
    (1 ≤ 2 ∧
      ∃ s : ARMLPState 2,
        ARMLP.construct (fun _ w _ => w) (fun _ => onesMat 2) none false 2 true
          false none 1 (onesMat 2) = Except.ok s ∧
        s.struct_mask = onesMat 2 ∧ s.transform = (fun w => w) ∧
        ARMLP.inject_structure s !![0, 0; 5, 0] false = s) :=
  ⟨(armlp_inject_structure_flag 2 mkTriangularWitnessState !![0, 0; 5, 0]).1,
    by decide,
    (armlp_inject_structure_flag 2 mkTriangularWitnessState !![0, 0; 5, 0]).2.2.2
      (fun _ w _ => w) (fun _ => onesMat 2) false 2 true false 1 (onesMat 2)
      (by decide)⟩

/-- Counterexample to claim C5: constructing an `ARMLP` with the unrecognized
`weight_init_fn` name "bogus" (and the default `num_weights = 5`) does not
complete — the dispatch assigns no initializer and the weight-stack
comprehension fails with `AttributeError` on first use of the missing
attribute. -/
theorem armlp_construct_invalid_name_counterexample :
    raisesError (ARMLP.construct (n := 2) (fun _ w _ => w) (fun _ => onesMat 2)
      none false 5 true false (some "bogus") 1 (onesMat 2)) = true := rfl

/-- Claim C5 (amended): constructing an `ARMLP` with a `weight_init_fn` name
that is not `None` and not one of the four recognized strings does not
succeed silently — the dispatch assigns no initializer, and whenever
`num_weights ≥ 1` the weight-stack construction raises (`AttributeError`
from the unset `self.weight_init_fn`), so construction fails. -/
theorem armlp_construct_invalid_name (n : ℕ)
    (extInit : ARMLP.WInitTag → Mat n → ℚ → Mat n) (raw : ℕ → Mat n)
    (tArg : Option (Mat n → Mat n)) (residual : Bool) (num_weights : ℕ)
    (triangular budget : Bool) (name : String) (gain : ℚ) (bmask : Mat n)
    (hname : name ≠ "orthogonal" ∧ name ≠ "xavier_normal" ∧
      name ≠ "xavier_uniform" ∧ name ≠ "sparse")
    (hnw : 1 ≤ num_weights) :
    ARMLP.dispatchWeightInit (some name) = none ∧
    raisesError (ARMLP.construct extInit raw tArg residual num_weights
      triangular budget (some name) gain bmask) = true := by
  have hd : ARMLP.dispatchWeightInit (some name) = none := by
    simp [ARMLP.dispatchWeightInit, hname.1, hname.2.1, hname.2.2.1, hname.2.2.2]
  refine ⟨hd, ?_⟩
  unfold ARMLP.construct
  rw [hd]
  dsimp only
  rw [if_neg (show ¬ num_weights = 0 by omega)]
  rfl

/-- Witness for the amended C5: the theorem instantiated at the name "bogus"
with `num_weights = 3`. -/
theorem armlp_construct_invalid_name_witness :
    ("bogus" ≠ "orthogonal" ∧ "bogus" ≠ "xavier_normal" ∧
      "bogus" ≠ "xavier_uniform" ∧ "bogus" ≠ "sparse") ∧ 1 ≤ 3 ∧
    (ARMLP.dispatchWeightInit (some "bogus") = none ∧
      raisesError (ARMLP.construct (n := 1) (fun _ w _ => w) (fun _ => onesMat 1)
        none true 3 false true (some "bogus") 2 (onesMat 1)) = true) :=
  ⟨by decide, by decide,
    armlp_construct_invalid_name 1 (fun _ w _ => w) (fun _ => onesMat 1)
      none true 3 false true "bogus" 2 (onesMat 1) (by decide) (by decide)⟩

/-! ## Sinkhorn lemmas -/

lemma mul_onesColumn_apply {n : ℕ} (M : Matrix (Fin n) (Fin n) ℝ) (i j : Fin n) :
    (M * SinkhornOperator.onesColumn n
      * Matrix.transpose (SinkhornOperator.onesColumn n)) i j
      = ∑ k : Fin n, M i k := by
  simp [Matrix.mul_apply, SinkhornOperator.onesColumn, Matrix.transpose,
    Fin.sum_univ_one]

lemma onesColumn_mul_apply {n : ℕ} (M : Matrix (Fin n) (Fin n) ℝ) (i j : Fin n) :
    (SinkhornOperator.onesColumn n
      * Matrix.transpose (SinkhornOperator.onesColumn n) * M) i j
      = ∑ k : Fin n, M k j := by
  simp [Matrix.mul_apply, SinkhornOperator.onesColumn, Matrix.transpose,
    Fin.sum_univ_one]

lemma normalizeRow_eq_spec {n : ℕ} (M : Matrix (Fin n) (Fin n) ℝ) :
    SinkhornOperator.normalizeRow M = SinkhornOperator.rowNormalizeSpec M := by
  funext i j
  rw [SinkhornOperator.normalizeRow, SinkhornOperator.rowNormalizeSpec,
    mul_onesColumn_apply]

lemma normalizeColumn_eq_spec {n : ℕ} (M : Matrix (Fin n) (Fin n) ℝ) :
    SinkhornOperator.normalizeColumn M = SinkhornOperator.colNormalizeSpec M := by
  funext i j
  rw [SinkhornOperator.normalizeColumn, SinkhornOperator.colNormalizeSpec,
    onesColumn_mul_apply]

lemma normalizeRow_pos {n : ℕ} (S : Matrix (Fin n) (Fin n) ℝ)
    (h : ∀ i j, 0 < S i j) : ∀ i j, 0 < SinkhornOperator.normalizeRow S i j := by
  intro i j
  rw [normalizeRow_eq_spec, SinkhornOperator.rowNormalizeSpec]
  exact div_pos (h i j)
    (Finset.sum_pos (fun k _ => h i k) ⟨i, Finset.mem_univ i⟩)

lemma normalizeColumn_pos {n : ℕ} (S : Matrix (Fin n) (Fin n) ℝ)
    (h : ∀ i j, 0 < S i j) : ∀ i j, 0 < SinkhornOperator.normalizeColumn S i j := by
  intro i j
  rw [normalizeColumn_eq_spec, SinkhornOperator.colNormalizeSpec]
  exact div_pos (h i j)
    (Finset.sum_pos (fun k _ => h k j) ⟨j, Finset.mem_univ j⟩)

lemma sinkhorn_iterate_pos {n : ℕ} (k : ℕ) :
    ∀ S : Matrix (Fin n) (Fin n) ℝ, (∀ i j, 0 < S i j) →
      ∀ i j,
        0 < ((fun S => SinkhornOperator.normalizeColumn
          (SinkhornOperator.normalizeRow S))^[k] S) i j := by
  induction k with
  | zero => intro S h i j; simpa using h i j
  | succ k ih =>
      intro S h i j
      rw [Function.iterate_succ_apply]
      exact ih _ (normalizeColumn_pos _ (normalizeRow_pos _ h)) i j

/-- Claim C4: `SinkhornOperator(num_steps)` raises a `ValueError` if and only
if `num_steps < 1`; for `k ≥ 1` steps, applying the operator to a square
matrix `M` returns the matrix obtained from `S₀ = exp(M)` by `k` iterations
that each first row-normalize (divide every row by its sum) and then
column-normalize (divide every column by its sum). -/
theorem sinkhorn_operator_spec :
    (∀ num_steps : ℤ, SinkhornOperator.init num_steps = none ↔ num_steps < 1) ∧
    (∀ (n k : ℕ) (M : Matrix (Fin n) (Fin n) ℝ), 1 ≤ k →
      SinkhornOperator.call k M = SinkhornOperator.sinkhornSpec k M) := by
  constructor
  · intro num_steps
    unfold SinkhornOperator.init
    split
    · simpa
    · simp_all
  · intro n k M _
    have hfun : (fun S : Matrix (Fin n) (Fin n) ℝ =>
        SinkhornOperator.normalizeColumn (SinkhornOperator.normalizeRow S))
        = fun S => SinkhornOperator.colNormalizeSpec
            (SinkhornOperator.rowNormalizeSpec S) := by
      funext S
      rw [normalizeRow_eq_spec, normalizeColumn_eq_spec]
    rw [SinkhornOperator.call, SinkhornOperator.sinkhornSpec, hfun]

/-- Witness for C4: the theorem instantiated at `num_steps = 0` (rejected)
and at one Sinkhorn step on the 1×1 zero matrix. -/
theorem sinkhorn_operator_spec_witness :
    (SinkhornOperator.init 0 = none ↔ (0 : ℤ) < 1) ∧
    SinkhornOperator.call 1 (0 : Matrix (Fin 1) (Fin 1) ℝ)
      = SinkhornOperator.sinkhornSpec 1 0 :=
  ⟨sinkhorn_operator_spec.1 0, sinkhorn_operator_spec.2 1 1 0 (by decide)⟩

/-- Claim C6: for every square matrix `M` and iteration count `k ≥ 1`, every
entry of `SinkhornOperator(k)(M)` is strictly positive in exact real
arithmetic: exponentiation yields positive entries and each row/column
normalization divides by a positive sum. -/
theorem sinkhorn_entries_positive (n k : ℕ) (M : Matrix (Fin n) (Fin n) ℝ)
    (_hk : 1 ≤ k) (i j : Fin n) : 0 < SinkhornOperator.call k M i j :=
  sinkhorn_iterate_pos k (fun i j => Real.exp (M i j))
    (fun i j => Real.exp_pos (M i j)) i j

/-- Witness for C6: one Sinkhorn step on the 1×1 zero matrix has a positive
entry. -/
theorem sinkhorn_entries_positive_witness :
    (1 : ℕ) ≤ 1 ∧ 0 < SinkhornOperator.call 1 (0 : Matrix (Fin 1) (Fin 1) ℝ) 0 0 :=
  ⟨by decide, sinkhorn_entries_positive 1 1 0 (by decide) 0 0⟩

/-- Claim C7: each structural-loss helper of the `Runner` returns its loss
accumulator unchanged when its trigger condition is false: `_l2_loss` when
`l2 = 0`; `_l1_loss` when `l1 = 0` or `use_ar_mlp` is off;
`_sinkhorn_entropy_loss` when `entropy_coeff = 0` or `permute` is off;
`_budget_loss` when `budget = 0` or `use_ar_mlp` is off; `_dep_loss` when the
stored dependency loss is `None`; `_qr_loss` when `qr_loss = 0` or the global
step is below `start_step`; `_triangularity_loss` when `triangularity_loss = 0`
or the global step is below `start_step`. -/
theorem runner_loss_gates_noop (n : ℕ) (r : RunnerState n) (acc : ℚ) :
    (r.hparams.l2 = 0 → Runner.l2_loss r acc = acc) ∧
    (r.hparams.l1 = 0 ∨ r.hparams.use_ar_mlp = false →
      Runner.l1_loss r acc = acc) ∧
    (r.hparams.entropy_coeff = 0 ∨ r.hparams.permute = false →
      Runner.sinkhorn_entropy_loss r acc = acc) ∧
    (r.hparams.budget = 0 ∨ r.hparams.use_ar_mlp = false →
      Runner.budget_loss r acc = acc) ∧
    (r.dep_loss = none → Runner.dep_loss r acc = acc) ∧
    (∀ s : ℕ, r.hparams.qr_loss = 0 ∨
        (r.hparams.start_step = some s ∧ r.global_step < s) →
      Runner.qr_loss r acc = acc) ∧
    (∀ s : ℕ, r.hparams.triangularity_loss = 0 ∨
        (r.hparams.start_step = some s ∧ r.global_step < s) →
      Runner.triangularity_loss r acc = acc) := by
  have gate : ∀ s : ℕ, r.hparams.start_step = some s → r.global_step < s →
      Runner.startStepGate r = false := by
    intro s hs hlt
    unfold Runner.startStepGate
    rw [hs]
    simp only [decide_eq_false_iff_not]
    omega
  refine ⟨?_, ?_, ?_, ?_, ?_, ?_, ?_⟩
  · intro h; simp [Runner.l2_loss, h]
  · rintro (h | h) <;> simp [Runner.l1_loss, h]
  · rintro (h | h) <;> simp [Runner.sinkhorn_entropy_loss, h]
  · rintro (h | h) <;> simp [Runner.budget_loss, h]
  · intro h; simp [Runner.dep_loss, h]
  · rintro s (h | ⟨hs, hlt⟩)
    · simp [Runner.qr_loss, h]
    · simp [Runner.qr_loss, gate s hs hlt]
  · rintro s (h | ⟨hs, hlt⟩)
    · simp [Runner.triangularity_loss, h]
    · simp [Runner.triangularity_loss, gate s hs hlt]

/-- Concrete runner state whose trigger conditions are all false while every
term value is nonzero, used to instantiate the C7 theorem; `qr_loss` and
`triangularity_loss` coefficients are nonzero but the global step is below
`start_step`. -/
def gateWitnessState : RunnerState 1 :=
  { hparams :=
      { l1 := 0
        l2 := 0
        entropy_coeff := 0
        budget := 0
        qr_loss := 1
        triangularity_loss := 1
        use_ar_mlp := false
        permute := false
        start_step := some 10 }
    dep_loss := none
    dep_mat := some (onesMat 1)
    global_step := 0
    encoderParamsSqSum := 7
    bottleneckL1Norm := 7
    sinkhornEntropy := 7
    budgetNetLoss := 7
    budgetNetEntropy := 7
    qrPermutationLoss := 7
    triangularityTerm := 7 }

/-- Witness for C7: every helper leaves the accumulator 5 unchanged on the
concrete gate-closed runner state. -/
theorem runner_loss_gates_noop_witness :
    Runner.l2_loss gateWitnessState 5 = 5 ∧
    Runner.l1_loss gateWitnessState 5 = 5 ∧
    Runner.sinkhorn_entropy_loss gateWitnessState 5 = 5 ∧
    Runner.budget_loss gateWitnessState 5 = 5 ∧
    Runner.dep_loss gateWitnessState 5 = 5 ∧
    Runner.qr_loss gateWitnessState 5 = 5 ∧
    Runner.triangularity_loss gateWitnessState 5 = 5 :=
  ⟨(runner_loss_gates_noop 1 gateWitnessState 5).1 rfl,
    (runner_loss_gates_noop 1 gateWitnessState 5).2.1 (Or.inl rfl),
    (runner_loss_gates_noop 1 gateWitnessState 5).2.2.1 (Or.inl rfl),
    (runner_loss_gates_noop 1 gateWitnessState 5).2.2.2.1 (Or.inl rfl),
    (runner_loss_gates_noop 1 gateWitnessState 5).2.2.2.2.1 rfl,
    (runner_loss_gates_noop 1 gateWitnessState 5).2.2.2.2.2.1 10
      (Or.inr ⟨rfl, by decide⟩),
    (runner_loss_gates_noop 1 gateWitnessState 5).2.2.2.2.2.2 10
      (Or.inr ⟨rfl, by decide⟩)⟩

end CareNlIca
